import Mathlib

namespace Pinfo

/-- A Go byte slice: each element is a byte value. -/
abbrev Bytes := List Nat

def u32 (n : Nat) : Nat := n % 4294967296

def rotl32 (x s : Nat) : Nat := u32 (x <<< s) ||| (x >>> (32 - s))

def rotr32 (x s : Nat) : Nat := (x >>> s) ||| u32 (x <<< (32 - s))

def not32 (x : Nat) : Nat := 4294967295 - x

/-- The 64-bit message length in bits as eight bytes, least significant first. -/
def lenLE (bits : Nat) : Bytes := (List.range 8).map (fun i => (bits >>> (8 * i)) % 256)

/-- Merkle-Damgard padding shared by MD5, SHA-1 and SHA-256: a 0x80 byte, zeros up to
56 mod 64, then the bit length (byte order chosen by the caller). -/
def padMsg (lenBytes : Bytes) (msg : Bytes) : Bytes :=
  msg ++ [128] ++ List.replicate ((119 - msg.length % 64) % 64) 0 ++ lenBytes

def blocks (msg : Bytes) : List Bytes :=
  (List.range (msg.length / 64)).map (fun i => (msg.drop (64 * i)).take 64)

def wordLE (b : Bytes) (i : Nat) : Nat :=
  b.getD (4 * i) 0 + 256 * b.getD (4 * i + 1) 0 + 65536 * b.getD (4 * i + 2) 0
    + 16777216 * b.getD (4 * i + 3) 0

def wordBE (b : Bytes) (i : Nat) : Nat :=
  16777216 * b.getD (4 * i) 0 + 65536 * b.getD (4 * i + 1) 0 + 256 * b.getD (4 * i + 2) 0
    + b.getD (4 * i + 3) 0

def bytesLE (w : Nat) : Bytes := (List.range 4).map (fun i => (w >>> (8 * i)) % 256)

def bytesBE (w : Nat) : Bytes := (List.range 4).map (fun i => (w >>> (8 * (3 - i))) % 256)

/-! ### crypto/md5 -/

def md5K : List Nat :=
  [3614090360, 3905402710, 606105819, 3250441966, 4118548399, 1200080426, 2821735955,
   4249261313, 1770035416, 2336552879, 4294925233, 2304563134, 1804603682, 4254626195,
   2792965006, 1236535329, 4129170786, 3225465664, 643717713, 3921069994, 3593408605,
   38016083, 3634488961, 3889429448, 568446438, 3275163606, 4107603335, 1163531501,
   2850285829, 4243563512, 1735328473, 2368359562, 4294588738, 2272392833, 1839030562,
   4259657740, 2763975236, 1272893353, 4139469664, 3200236656, 681279174, 3936430074,
   3572445317, 76029189, 3654602809, 3873151461, 530742520, 3299628645, 4096336452,
   1126891415, 2878612391, 4237533241, 1700485571, 2399980690, 4293915773, 2240044497,
   1873313359, 4264355552, 2734768916, 1309151649, 4149444226, 3174756917, 718787259,
   3951481745]

def md5S : List Nat :=
  [7, 12, 17, 22, 7, 12, 17, 22, 7, 12, 17, 22, 7, 12, 17, 22,
   5, 9, 14, 20, 5, 9, 14, 20, 5, 9, 14, 20, 5, 9, 14, 20,
   4, 11, 16, 23, 4, 11, 16, 23, 4, 11, 16, 23, 4, 11, 16, 23,
   6, 10, 15, 21, 6, 10, 15, 21, 6, 10, 15, 21, 6, 10, 15, 21]

structure MD5State where
  a : Nat
  b : Nat
  c : Nat
  d : Nat

def md5Round (blk : Bytes) (s : MD5State) (i : Nat) : MD5State :=
  let f :=
    if i < 16 then (s.b &&& s.c) ||| (not32 s.b &&& s.d)
    else if i < 32 then (s.d &&& s.b) ||| (not32 s.d &&& s.c)
    else if i < 48 then s.b ^^^ s.c ^^^ s.d
    else s.c ^^^ (s.b ||| not32 s.d)
  let g :=
    if i < 16 then i
    else if i < 32 then (5 * i + 1) % 16
    else if i < 48 then (3 * i + 5) % 16
    else (7 * i) % 16
  let t := u32 (s.a + f + md5K.getD i 0 + wordLE blk g)
  ⟨s.d, u32 (s.b + rotl32 t (md5S.getD i 0)), s.b, s.c⟩

def md5Block (s : MD5State) (blk : Bytes) : MD5State :=
  let r := (List.range 64).foldl (md5Round blk) s
  ⟨u32 (s.a + r.a), u32 (s.b + r.b), u32 (s.c + r.c), u32 (s.d + r.d)⟩

/-- The 16-byte MD5 digest of a byte sequence (RFC 1321), as `md5.New` followed by writes of
the sequence and `Sum(nil)` computes it. -/
def md5Sum (msg : Bytes) : Bytes :=
  let s := (blocks (padMsg (lenLE (8 * msg.length)) msg)).foldl md5Block
    ⟨1732584193, 4023233417, 2562383102, 271733878⟩
  bytesLE s.a ++ bytesLE s.b ++ bytesLE s.c ++ bytesLE s.d

/-! ### crypto/sha1 -/

def sha1Schedule (blk : Bytes) : List Nat :=
  (List.range 64).foldl
    (fun w i =>
      w ++ [rotl32 (w.getD (i + 13) 0 ^^^ w.getD (i + 8) 0 ^^^ w.getD (i + 2) 0 ^^^ w.getD i 0) 1])
    ((List.range 16).map (wordBE blk))

structure SHA1State where
  a : Nat
  b : Nat
  c : Nat
  d : Nat
  e : Nat

def sha1Round (w : List Nat) (s : SHA1State) (i : Nat) : SHA1State :=
  let f :=
    if i < 20 then (s.b &&& s.c) ||| (not32 s.b &&& s.d)
    else if i < 40 then s.b ^^^ s.c ^^^ s.d
    else if i < 60 then (s.b &&& s.c) ||| (s.b &&& s.d) ||| (s.c &&& s.d)
    else s.b ^^^ s.c ^^^ s.d
  let k :=
    if i < 20 then 1518500249
    else if i < 40 then 1859775393
    else if i < 60 then 2400959708
    else 3395469782
  ⟨u32 (rotl32 s.a 5 + f + s.e + k + w.getD i 0), s.a, rotl32 s.b 30, s.c, s.d⟩

def sha1Block (s : SHA1State) (blk : Bytes) : SHA1State :=
  let r := (List.range 80).foldl (sha1Round (sha1Schedule blk)) s
  ⟨u32 (s.a + r.a), u32 (s.b + r.b), u32 (s.c + r.c), u32 (s.d + r.d), u32 (s.e + r.e)⟩

/-- The 20-byte SHA-1 digest of a byte sequence (FIPS 180-4). -/
def sha1Sum (msg : Bytes) : Bytes :=
  let s := (blocks (padMsg (lenLE (8 * msg.length)).reverse msg)).foldl sha1Block
    ⟨1732584193, 4023233417, 2562383102, 271733878, 3285377520⟩
  bytesBE s.a ++ bytesBE s.b ++ bytesBE s.c ++ bytesBE s.d ++ bytesBE s.e

/-! ### crypto/sha256 -/

def sha256K : List Nat :=
  [1116352408, 1899447441, 3049323471, 3921009573, 961987163, 1508970993, 2453635748,
   2870763221, 3624381080, 310598401, 607225278, 1426881987, 1925078388, 2162078206,
   2614888103, 3248222580, 3835390401, 4022224774, 264347078, 604807628, 770255983,
   1249150122, 1555081692, 1996064986, 2554220882, 2821834349, 2952996808, 3210313671,
   3336571891, 3584528711, 113926993, 338241895, 666307205, 773529912, 1294757372,
   1396182291, 1695183700, 1986661051, 2177026350, 2456956037, 2730485921, 2820302411,
   3259730800, 3345764771, 3516065817, 3600352804, 4094571909, 275423344, 430227734,
   506948616, 659060556, 883997877, 958139571, 1322822218, 1537002063, 1747873779,
   1955562222, 2024104815, 2227730452, 2361852424, 2428436474, 2756734187, 3204031479,
   3329325298]

def sha256Schedule (blk : Bytes) : List Nat :=
  (List.range 48).foldl
    (fun w i =>
      let x := w.getD (i + 1) 0
      let y := w.getD (i + 14) 0
      let s0 := rotr32 x 7 ^^^ rotr32 x 18 ^^^ (x >>> 3)
      let s1 := rotr32 y 17 ^^^ rotr32 y 19 ^^^ (y >>> 10)
      w ++ [u32 (w.getD i 0 + s0 + w.getD (i + 9) 0 + s1)])
    ((List.range 16).map (wordBE blk))

def sha256Round (w : List Nat) (s : List Nat) (i : Nat) : List Nat :=
  let a := s.getD 0 0
  let b := s.getD 1 0
  let c := s.getD 2 0
  let d := s.getD 3 0
  let e := s.getD 4 0
  let f := s.getD 5 0
  let g := s.getD 6 0
  let h := s.getD 7 0
  let s1 := rotr32 e 6 ^^^ rotr32 e 11 ^^^ rotr32 e 25
  let ch := (e &&& f) ^^^ (not32 e &&& g)
  let t1 := u32 (h + s1 + ch + sha256K.getD i 0 + w.getD i 0)
  let s0 := rotr32 a 2 ^^^ rotr32 a 13 ^^^ rotr32 a 22
  let maj := (a &&& b) ^^^ (a &&& c) ^^^ (b &&& c)
  let t2 := u32 (s0 + maj)
  [u32 (t1 + t2), a, b, c, u32 (d + t1), e, f, g]

def sha256Block (s : List Nat) (blk : Bytes) : List Nat :=
  let r := (List.range 64).foldl (sha256Round (sha256Schedule blk)) s
  List.zipWith (fun x y => u32 (x + y)) s r

/-- The 32-byte SHA-256 digest of a byte sequence (FIPS 180-4). -/
def sha256Sum (msg : Bytes) : Bytes :=
  let s := (blocks (padMsg (lenLE (8 * msg.length)).reverse msg)).foldl sha256Block
    [1779033703, 3144134277, 1013904242, 2773480762, 1359893119, 2600822924, 528734635,
     1541459225]
  s.flatMap bytesBE

def hexDigit (n : Nat) : Char := "0123456789abcdef".toList.getD n '0'

/-- Go: hex.EncodeToString -/
def EncodeToString (b : Bytes) : String :=
  String.mk (b.flatMap (fun x => [hexDigit (x / 16), hexDigit (x % 16)]))

/-! ## Go run-time outcomes and the operating-system objects the program touches -/

/-- How a Go call ends: it returns, the process exits through `log.Fatalln` / `log.Fatalf`
(the message is what the logger prints), or the run time panics. -/
inductive Outcome (α : Type) where
  | ok (a : α)
  | fatal (msg : String)
  | panic (msg : String)
deriving DecidableEq, Repr

def Outcome.bind {α β : Type} (x : Outcome α) (k : α → Outcome β) : Outcome β :=
  match x with
  | .ok a => k a
  | .fatal m => .fatal m
  | .panic m => .panic m

instance : Monad Outcome where
  pure := Outcome.ok
  bind := Outcome.bind

/-- Consts for Magic numbers and Machine Codes -/
def BIT64 : Nat := 0x8664

def BIT32 : Nat := 0x14c

def PE32 : Nat := 0x10B

def PE32P : Nat := 0x20B

/-- The header of a section as `debug/pe` reports it (`pe.SectionHeader`, embedded in
`pe.Section`; the section's data reader is not part of the report's content). -/
structure Section where
  Name : String
  VirtualSize : Nat
  VirtualAddress : Nat
  Size : Nat
  Offset : Nat
  PointerToRelocations : Nat
  PointerToLineNumbers : Nat
  NumberOfRelocations : Nat
  NumberOfLineNumbers : Nat
  Characteristics : Nat
deriving DecidableEq, Repr

/-- The dynamic type and value behind `pe.File.OptionalHeader`, an empty interface holding
nil, a `*pe.OptionalHeader32` or a `*pe.OptionalHeader64`; only the `Magic` field is read. -/
inductive OptionalHeader where
  | none
  | oh32 (Magic : Nat)
  | oh64 (Magic : Nat)
deriving DecidableEq, Repr

/-- A parsed image, `pe.File`: the fields the program reads, and what the two import queries
return for it as Go (value, error) pairs. -/
structure PEFile where
  Machine : Nat
  OptionalHeader : OptionalHeader
  Sections : List Section
  importedSymbols : List String × Option String
  importedLibraries : List String × Option String
deriving DecidableEq, Repr

/-- What `pe.NewFile` makes of a file's content: a parsed image or the parse error. -/
inductive Parse where
  | image (exe : PEFile)
  | error (msg : String)
deriving DecidableEq, Repr

/-- An open `*os.File`: its name, the bytes stored in it, the read offset of the handle, the
error its reads report (if the device fails), the error `Stat` reports (if any), and the
result of parsing the stored bytes as a PE image. `pe.NewFile` reads through `ReadAt`, so
its result depends on the content only and it leaves the read offset alone. -/
structure OsFile where
  name : String
  content : Bytes
  offset : Nat
  readErr : Option String
  statErr : Option String
  pe : Parse
deriving DecidableEq, Repr

/-- What `(*exec.Cmd).Output` returns: the captured standard output and the error. -/
structure CmdResult where
  stdout : Bytes
  err : Option String
deriving DecidableEq, Repr

/-- The processes `exec.Command` can start: from the argument vector to the result of
running it to completion. -/
abbrev Exec := List String → CmdResult

/-- BasicProps contains basic data about a PE file -/
structure BasicProps where
  Name : String
  MD5 : String
  SHA1 : String
  SHA256 : String
  FileType : String
  Magic : String
  FSize : String
  Libraries : List String
  Symbols : List String
  Sections : List Section
  ModelRes : Bool
deriving DecidableEq, Repr

/-- The state a filler works on: the report behind the receiver pointer, the open file
handle, and the lines written to standard output so far. -/
structure St where
  p : BasicProps
  file : OsFile
  out : List String
deriving DecidableEq, Repr

/-! ## Library calls -/

/-- Go `io.Copy(h, file)`: the bytes handed to the hash are those from the read offset to
the end of the file, and the offset ends there; a read error is returned. -/
def ioCopy (f : OsFile) : Except String (Bytes × OsFile) :=
  match f.readErr with
  | some e => .error e
  | .none => .ok (f.content.drop f.offset, { f with offset := max f.offset f.content.length })

/-- Go `file.Seek(0, 0)`. -/
def Seek0 (f : OsFile) : OsFile := { f with offset := 0 }

/-- Go `pe.NewFile(file)`: a (pointer, error) pair, the pointer nil when the error is set. -/
def NewFile (f : OsFile) : Option PEFile × Option String :=
  match f.pe with
  | .image exe => (some exe, .none)
  | .error e => (.none, some e)

/-- Go `exe.ImportedSymbols()`: the method starts by reading a field of its receiver, so a
nil receiver is a nil-pointer dereference. -/
def ImportedSymbols (exe : Option PEFile) : Outcome (List String × Option String) :=
  match exe with
  | .none => .panic "runtime error: invalid memory address or nil pointer dereference"
  | some e => .ok e.importedSymbols

/-- Go `exe.ImportedLibraries()`: the method of `debug/pe` returns without reading its
receiver, so a nil receiver gets the empty answer. -/
def ImportedLibraries (exe : Option PEFile) : Outcome (List String × Option String) :=
  match exe with
  | .none => .ok ([], .none)
  | some e => .ok e.importedLibraries

/-- Go `strconv.FormatInt(i, 10)`. -/
def FormatInt (i : Int) : String :=
  match i with
  | .ofNat n => String.mk (Nat.toDigits 10 n)
  | .negSucc n => "-" ++ String.mk (Nat.toDigits 10 (n + 1))

/-- The two errors of `strconv`. -/
inductive NumError where
  | ErrSyntax
  | ErrRange
deriving DecidableEq, Repr

/-- The digit loop of `strconv.ParseUint(s, 10, 64)`: `n` is the value so far. -/
def parseUintLoop : Bytes → Nat → Nat × Option NumError
  | [], n => (n, .none)
  | c :: cs, n =>
    if 48 ≤ c ∧ c ≤ 57 then
      if n ≥ 18446744073709551615 / 10 + 1 then (18446744073709551615, some .ErrRange)
      else
        let n1 := n * 10 + (c - 48)
        if n1 > 18446744073709551615 then (18446744073709551615, some .ErrRange)
        else parseUintLoop cs n1
    else (0, some .ErrSyntax)

/-- Go `strconv.ParseUint(s, 10, 64)`. -/
def ParseUint (s : Bytes) : Nat × Option NumError :=
  if s = [] then (0, some .ErrSyntax) else parseUintLoop s 0

/-- Go `strconv.ParseInt(s, 10, 0)` with a 64-bit `int`: a leading sign is picked off, the
rest goes through `ParseUint`, a syntax error yields 0 and a range error the nearest
bound. -/
def ParseInt (s : Bytes) : Int × Option NumError :=
  match s with
  | [] => (0, some .ErrSyntax)
  | c :: cs =>
    let neg := c = 45
    let digits := if c = 43 ∨ c = 45 then cs else c :: cs
    match ParseUint digits with
    | (_, some .ErrSyntax) => (0, some .ErrSyntax)
    | (un, _) =>
      if ¬ neg ∧ un ≥ 9223372036854775808 then (9223372036854775807, some .ErrRange)
      else if neg ∧ un > 9223372036854775808 then (-9223372036854775808, some .ErrRange)
      else if neg then (-(un : Int), .none) else ((un : Int), .none)

/-- Go `strconv.Atoi(s)`: `ParseInt(s, 10, 0)`; the fast path taken for short inputs
returns the same pair. -/
def Atoi (s : Bytes) : Int × Option NumError := ParseInt s

/-- The bytes of a Go string literal made of ASCII characters. -/
def bytesOf (s : String) : Bytes := s.toList.map Char.toNat

/-- Go `fmt.Sprintf` for a format made of plain text and `%s` verbs with an optional `-`
flag and decimal width, which is all the program uses: text is copied, `%s` takes the next
operand, and a width pads it with spaces up to that many characters, on the right under
`-` and on the left otherwise. The second argument is `none` in plain text and holds the
flag and the width read so far inside a verb. -/
def sprintfAux : List Char → Option (Bool × Nat) → List String → List Char
  | [], _, _ => []
  | c :: cs, .none, args =>
    if c = '%' then sprintfAux cs (some (false, 0)) args else c :: sprintfAux cs .none args
  | c :: cs, some (minus, width), args =>
    if c = '-' then sprintfAux cs (some (true, width)) args
    else if 48 ≤ c.toNat ∧ c.toNat ≤ 57 then
      sprintfAux cs (some (minus, 10 * width + (c.toNat - 48))) args
    else if c = 's' then
      match args with
      | [] => "%!s(MISSING)".toList ++ sprintfAux cs .none []
      | a :: rest =>
        let pad := List.replicate (width - a.length) ' '
        (if minus then a.toList ++ pad else pad ++ a.toList) ++ sprintfAux cs .none rest
    else c :: sprintfAux cs .none args

def Sprintf (format : String) (args : List String) : String :=
  String.mk (sprintfAux format.toList .none args)

/-! ## The program -/

def fillHashes (s : St) : Outcome St :=
  match ioCopy s.file with
  | .error err => .fatal ("Error copying file into md5 hash: " ++ err)
  | .ok (mh, f1) =>
    let p1 := { s.p with MD5 := EncodeToString (md5Sum mh) }
    match ioCopy (Seek0 f1) with
    | .error err => .fatal ("error copying file into sha1 hash: " ++ err)
    | .ok (s1h, f2) =>
      let p2 := { p1 with SHA1 := EncodeToString (sha1Sum s1h) }
      match ioCopy (Seek0 f2) with
      | .error err => .fatal ("Error copying file into sha256 hash: " ++ err)
      | .ok (s2h, f3) =>
        let p3 := { p2 with SHA256 := EncodeToString (sha256Sum s2h) }
        .ok { s with p := p3, file := Seek0 f3 }

def fillFileType (s : St) : Outcome St :=
  match NewFile s.file with
  | (_, some err) => .fatal ("Error converting to pe: " ++ err)
  | (.none, .none) => .panic "runtime error: invalid memory address or nil pointer dereference"
  | (some exe, .none) =>
    if exe.Machine = BIT32 then .ok { s with p := { s.p with FileType := "Win32 Exe" } }
    else if exe.Machine = BIT64 then .ok { s with p := { s.p with FileType := "Win64 Exe" } }
    else .ok s

def fillMagic (s : St) : Outcome St :=
  match NewFile s.file with
  | (_, some err) => .fatal ("Error converting to pe: " ++ err)
  | (.none, .none) => .panic "runtime error: invalid memory address or nil pointer dereference"
  | (some exe, .none) =>
    match exe.OptionalHeader with
    | .oh32 magic =>
      if magic = PE32 then .ok { s with p := { s.p with Magic := "PE32" } }
      else if magic = PE32P then .ok { s with p := { s.p with Magic := "PE32P" } }
      else .ok { s with p := { s.p with Magic := "Unknown" } }
    | .oh64 _ =>
      .panic ("interface conversion: interface \x7b\x7d is *pe.OptionalHeader64, "
        ++ "not *pe.OptionalHeader32")
    | .none => .panic "interface conversion: interface \x7b\x7d is nil, not *pe.OptionalHeader32"

def fillFileSize (s : St) : Outcome St :=
  match s.file.statErr with
  | some err => .fatal ("Error calling stat on file: " ++ err ++ " \n")
  | .none => .ok { s with p := { s.p with FSize := FormatInt (s.file.content.length : Nat) } }

def fillSymbols (s : St) : Outcome St :=
  match NewFile s.file with
  | (exe, err) =>
    let out1 := if err.isSome then s.out ++ ["Error converting to PE in fillSymbols"] else s.out
    match ImportedSymbols exe with
    | .ok (syms, err2) =>
      .ok { s with
        p := { s.p with Symbols := syms }
        out := if err2.isSome then out1 ++ ["Error getting imported symbols"] else out1 }
    | .fatal m => .fatal m
    | .panic m => .panic m

def fillLibraries (s : St) : Outcome St :=
  match NewFile s.file with
  | (exe, err) =>
    let out1 := if err.isSome then s.out ++ ["Error converting to PE in fillImports"] else s.out
    match ImportedLibraries exe with
    | .ok (libs, err2) =>
      .ok { s with
        p := { s.p with Libraries := libs }
        out := if err2.isSome then out1 ++ ["Error getting imported libraries"] else out1 }
    | .fatal m => .fatal m
    | .panic m => .panic m

def fillSections (s : St) : Outcome St :=
  match NewFile s.file with
  | (exe, err) =>
    let out1 := if err.isSome then s.out ++ ["Error converting to pe in fillSections"] else s.out
    match exe with
    | .none => .panic "runtime error: invalid memory address or nil pointer dereference"
    | some e => .ok { s with p := { s.p with Sections := s.p.Sections ++ e.Sections }, out := out1 }

def fillFromModel (exec : Exec) (s : St) : Outcome St :=
  let pmodel := exec ["python3", "prediction.py", s.file.name]
  let out1 := if pmodel.err.isSome then s.out ++ ["Error running model"] else s.out
  let res := (Atoi pmodel.stdout).1
  if res = 0 then .ok { s with p := { s.p with ModelRes := false }, out := out1 }
  else if res = 1 then .ok { s with p := { s.p with ModelRes := true }, out := out1 }
  else if res = -1 then .ok { s with out := out1 ++ ["Error from the model"] }
  else .ok { s with out := out1 }

/-- The zero value `BasicProps\x7b\x7d`. -/
def BasicProps.zero : BasicProps :=
  ⟨"", "", "", "", "", "", "", [], [], [], false⟩

/-- NewProps returns a pointer to a basicProps struct -/
def NewProps (exec : Exec) (file : OsFile) (useModel : Bool) : Outcome St := do
  let s0 : St := { p := { BasicProps.zero with Name := file.name }, file := file, out := [] }
  let s1 ← fillHashes s0
  let s2 ← fillFileType s1
  let s3 ← fillMagic s2
  let s4 ← fillFileSize s3
  let s5 ← fillLibraries s4
  let s6 ← fillSymbols s5
  let s7 ← fillSections s6
  if useModel then fillFromModel exec s7 else pure s7

abbrev GoString := String

def BasicProps.String (p : BasicProps) : GoString :=
  Sprintf "---Basic Info---\n%-15s%s\n%-15s%s\n%-15s%s\n%-15s%s\n%-15s%s\n%-15s%s"
    ["MD5 Hash: ", p.MD5, "SHA1 Hash: ", p.SHA1, "SHA256 Hash: ", p.SHA256,
     "File Type: ", p.FileType, "Magic: ", p.Magic, "File Size: ", p.FSize]

/-! ## Sample inputs -/

def sampleSection : Section := ⟨".text", 4096, 4096, 512, 1024, 0, 0, 0, 0, 1610612768⟩

/-- A 32-bit image as the loader reports it: machine 0x14c, PE32 optional header. -/
def exe32 : PEFile :=
  ⟨BIT32, .oh32 PE32, [sampleSection], (["ExitProcess:kernel32.dll"], .none), ([], .none)⟩

/-- A 64-bit image as the loader reports it: machine 0x8664, PE32+ optional header. -/
def exe64 : PEFile :=
  ⟨BIT64, .oh64 PE32P, [sampleSection], (["ExitProcess:kernel32.dll"], .none), ([], .none)⟩

def file32 : OsFile := ⟨"a.exe", [77, 90], 0, .none, .none, .image exe32⟩

def file64 : OsFile := ⟨"b.exe", [77, 90], 0, .none, .none, .image exe64⟩

/-- An image without optional header, such as an object file. -/
def exeNoOpt : PEFile := ⟨BIT32, .none, [sampleSection], ([], .none), ([], .none)⟩

def fileNoOpt : OsFile := ⟨"e.obj", [76, 1], 0, .none, .none, .image exeNoOpt⟩

/-- The sample 32-bit image on a handle that has already been read to the end. -/
def fileSeeked : OsFile := ⟨"a.exe", [77, 90], 2, .none, .none, .image exe32⟩

/-- A file the loader rejects. -/
def fileBad : OsFile :=
  ⟨"c.bin", [77], 0, .none, .none, .error "DOS header missing MZ signature"⟩

/-- A classifier process that prints the given text and exits with status 0. -/
def printing (text : String) : Exec := fun _ => ⟨bytesOf text, .none⟩

/-! ## What the steps compute, as the specification words it -/

/-- The file type the specification assigns to a machine code. -/
def fileTypeOf (machine : Nat) : String :=
  if machine = 0x14c then "Win32 Exe" else if machine = 0x8664 then "Win64 Exe" else ""

/-- The magic name the specification assigns to an optional-header magic value. -/
def magicOf (magic : Nat) : String :=
  if magic = 0x10B then "PE32" else if magic = 0x20B then "PE32P" else "Unknown"

/-- The lines `fillLibraries`, `fillSymbols` and `fillSections` print for an image the loader
accepted: one for each import query that reports an error. -/
def importLog (exe : PEFile) : List String :=
  (if exe.importedLibraries.2.isSome then ["Error getting imported libraries"] else [])
    ++ (if exe.importedSymbols.2.isSome then ["Error getting imported symbols"] else [])

/-- The report `NewProps` assembles before the classifier step, for a file whose reads and
`Stat` succeed and whose image has a 32-bit optional header with the given magic. -/
def reportOf (file : OsFile) (exe : PEFile) (magic : Nat) : BasicProps :=
  { Name := file.name
    MD5 := EncodeToString (md5Sum (file.content.drop file.offset))
    SHA1 := EncodeToString (sha1Sum file.content)
    SHA256 := EncodeToString (sha256Sum file.content)
    FileType := fileTypeOf exe.Machine
    Magic := magicOf magic
    FSize := FormatInt (file.content.length : Nat)
    Libraries := exe.importedLibraries.1
    Symbols := exe.importedSymbols.1
    Sections := exe.Sections
    ModelRes := false }

/-- The number a run of decimal digits spells. -/
def decVal (digits : Bytes) : Nat := digits.foldl (fun m c => m * 10 + (c - 48)) 0

/-- A label left-justified in a 15-character column: the label, then spaces up to 15
characters. -/
def column (label : String) : String :=
  label ++ String.mk (List.replicate (15 - label.length) ' ')

/-- The state after the seven unconditional steps of `NewProps`. -/
def assembled (file : OsFile) (exe : PEFile) (magic : Nat) : St :=
  { p := reportOf file exe magic, file := { file with offset := 0 }, out := importLog exe }

/-! ## Lemmas on the steps -/

theorem Outcome.bind_ok {α β : Type} (a : α) (k : α → Outcome β) :
    (Outcome.ok a >>= k) = k a := rfl

theorem Outcome.bind_fatal {α β : Type} (m : String) (k : α → Outcome β) :
    (Outcome.fatal m >>= k) = Outcome.fatal m := rfl

theorem Outcome.bind_panic {α β : Type} (m : String) (k : α → Outcome β) :
    (Outcome.panic m >>= k) = Outcome.panic m := rfl

theorem Outcome.pure_eq {α : Type} (a : α) : (pure a : Outcome α) = Outcome.ok a := rfl

theorem fillHashes_readable (s : St) (h : s.file.readErr = none) :
    fillHashes s = .ok { s with
      p := { s.p with
        MD5 := EncodeToString (md5Sum (s.file.content.drop s.file.offset))
        SHA1 := EncodeToString (sha1Sum s.file.content)
        SHA256 := EncodeToString (sha256Sum s.file.content) }
      file := { s.file with offset := 0 } } := by
  simp [fillHashes, ioCopy, Seek0, h]

theorem fillHashes_unreadable (s : St) (e : String) (h : s.file.readErr = some e) :
    fillHashes s = .fatal ("Error copying file into md5 hash: " ++ e) := by
  simp [fillHashes, ioCopy, h]

theorem fillFileType_image (s : St) (exe : PEFile) (hp : s.file.pe = .image exe) :
    fillFileType s = .ok { s with p := { s.p with FileType :=
      if exe.Machine = 0x14c then "Win32 Exe"
      else if exe.Machine = 0x8664 then "Win64 Exe" else s.p.FileType } } := by
  simp only [fillFileType, NewFile, hp, BIT32, BIT64]
  split_ifs <;> rfl

theorem fillFileType_error (s : St) (e : String) (hp : s.file.pe = .error e) :
    fillFileType s = .fatal ("Error converting to pe: " ++ e) := by
  simp only [fillFileType, NewFile, hp]

theorem fillMagic_oh32 (s : St) (exe : PEFile) (magic : Nat) (hp : s.file.pe = .image exe)
    (ho : exe.OptionalHeader = .oh32 magic) :
    fillMagic s = .ok { s with p := { s.p with Magic := magicOf magic } } := by
  simp only [fillMagic, NewFile, hp, ho, PE32, PE32P, magicOf]
  split_ifs <;> rfl

theorem fillMagic_oh64 (s : St) (exe : PEFile) (magic : Nat) (hp : s.file.pe = .image exe)
    (ho : exe.OptionalHeader = .oh64 magic) :
    fillMagic s = .panic ("interface conversion: interface \x7b\x7d is *pe.OptionalHeader64, "
        ++ "not *pe.OptionalHeader32") := by
  simp only [fillMagic, NewFile, hp, ho]

theorem fillMagic_none (s : St) (exe : PEFile) (hp : s.file.pe = .image exe)
    (ho : exe.OptionalHeader = .none) :
    fillMagic s = .panic "interface conversion: interface \x7b\x7d is nil, not *pe.OptionalHeader32" := by
  simp only [fillMagic, NewFile, hp, ho]

theorem fillFileSize_stat (s : St) (hs : s.file.statErr = none) :
    fillFileSize s
      = .ok { s with p := { s.p with FSize := FormatInt (s.file.content.length : Nat) } } := by
  simp only [fillFileSize, hs]

theorem fillFileSize_error (s : St) (e : String) (hs : s.file.statErr = some e) :
    fillFileSize s = .fatal ("Error calling stat on file: " ++ e ++ " \n") := by
  simp only [fillFileSize, hs]

theorem fillLibraries_image (s : St) (exe : PEFile) (hp : s.file.pe = .image exe) :
    fillLibraries s = .ok { s with
      p := { s.p with Libraries := exe.importedLibraries.1 }
      out := if exe.importedLibraries.2.isSome then s.out ++ ["Error getting imported libraries"]
        else s.out } := by
  simp [fillLibraries, NewFile, hp, ImportedLibraries]

theorem fillSymbols_image (s : St) (exe : PEFile) (hp : s.file.pe = .image exe) :
    fillSymbols s = .ok { s with
      p := { s.p with Symbols := exe.importedSymbols.1 }
      out := if exe.importedSymbols.2.isSome then s.out ++ ["Error getting imported symbols"]
        else s.out } := by
  simp [fillSymbols, NewFile, hp, ImportedSymbols]

theorem fillSections_image (s : St) (exe : PEFile) (hp : s.file.pe = .image exe) :
    fillSections s = .ok { s with p := { s.p with Sections := s.p.Sections ++ exe.Sections } } := by
  simp [fillSections, NewFile, hp]

theorem NewProps_image (exec : Exec) (file : OsFile) (useModel : Bool) (exe : PEFile)
    (magic : Nat) (hr : file.readErr = none) (hs : file.statErr = none)
    (hp : file.pe = .image exe) (ho : exe.OptionalHeader = .oh32 magic) :
    NewProps exec file useModel =
      if useModel then fillFromModel exec (assembled file exe magic)
      else .ok (assembled file exe magic) := by
  simp only [NewProps, Outcome.pure_eq]
  rw [fillHashes_readable _ hr]
  simp only [Outcome.bind_ok]
  rw [fillFileType_image _ exe hp]
  simp only [Outcome.bind_ok]
  rw [fillMagic_oh32 _ exe magic hp ho]
  simp only [Outcome.bind_ok]
  rw [fillFileSize_stat _ hs]
  simp only [Outcome.bind_ok]
  rw [fillLibraries_image _ exe hp]
  simp only [Outcome.bind_ok]
  rw [fillSymbols_image _ exe hp]
  simp only [Outcome.bind_ok]
  rw [fillSections_image _ exe hp]
  simp only [Outcome.bind_ok]
  have e3 : ∀ a b : St, a = b →
      (if useModel = true then fillFromModel exec a else Outcome.ok a)
        = (if useModel = true then fillFromModel exec b else Outcome.ok b) := by
    intro a b h; rw [h]
  apply e3
  simp only [assembled, reportOf, importLog, fileTypeOf, BasicProps.zero, St.mk.injEq,
    BasicProps.mk.injEq, List.nil_append, true_and, and_true]
  split_ifs <;> simp

theorem NewProps_unreadable (exec : Exec) (file : OsFile) (useModel : Bool) (e : String)
    (hr : file.readErr = some e) :
    NewProps exec file useModel = .fatal ("Error copying file into md5 hash: " ++ e) := by
  simp only [NewProps]
  rw [fillHashes_unreadable _ e hr]
  rfl

theorem NewProps_rejected (exec : Exec) (file : OsFile) (useModel : Bool) (e : String)
    (hr : file.readErr = none) (hp : file.pe = .error e) :
    NewProps exec file useModel = .fatal ("Error converting to pe: " ++ e) := by
  simp only [NewProps]
  rw [fillHashes_readable _ hr]
  simp only [Outcome.bind_ok]
  rw [fillFileType_error _ e hp]
  rfl

theorem NewProps_oh64 (exec : Exec) (file : OsFile) (useModel : Bool) (exe : PEFile)
    (magic : Nat) (hr : file.readErr = none) (hp : file.pe = .image exe)
    (ho : exe.OptionalHeader = .oh64 magic) :
    NewProps exec file useModel
      = .panic ("interface conversion: interface \x7b\x7d is *pe.OptionalHeader64, "
        ++ "not *pe.OptionalHeader32") := by
  simp only [NewProps]
  rw [fillHashes_readable _ hr]
  simp only [Outcome.bind_ok]
  rw [fillFileType_image _ exe hp]
  simp only [Outcome.bind_ok]
  rw [fillMagic_oh64 _ exe magic hp ho]
  rfl

theorem NewProps_no_optional_header (exec : Exec) (file : OsFile) (useModel : Bool)
    (exe : PEFile) (hr : file.readErr = none) (hp : file.pe = .image exe)
    (ho : exe.OptionalHeader = .none) :
    NewProps exec file useModel
      = .panic "interface conversion: interface \x7b\x7d is nil, not *pe.OptionalHeader32" := by
  simp only [NewProps]
  rw [fillHashes_readable _ hr]
  simp only [Outcome.bind_ok]
  rw [fillFileType_image _ exe hp]
  simp only [Outcome.bind_ok]
  rw [fillMagic_none _ exe hp ho]
  rfl

theorem NewProps_stat_error (exec : Exec) (file : OsFile) (useModel : Bool) (exe : PEFile)
    (magic : Nat) (e : String) (hr : file.readErr = none) (hs : file.statErr = some e)
    (hp : file.pe = .image exe) (ho : exe.OptionalHeader = .oh32 magic) :
    NewProps exec file useModel = .fatal ("Error calling stat on file: " ++ e ++ " \n") := by
  simp only [NewProps]
  rw [fillHashes_readable _ hr]
  simp only [Outcome.bind_ok]
  rw [fillFileType_image _ exe hp]
  simp only [Outcome.bind_ok]
  rw [fillMagic_oh32 _ exe magic hp ho]
  simp only [Outcome.bind_ok]
  rw [fillFileSize_error _ e hs]
  rfl

/-- When `NewProps` returns, the reads and `Stat` succeeded and the loader accepted the file
with a 32-bit optional header. -/
theorem NewProps_ok_inv (exec : Exec) (file : OsFile) (useModel : Bool) (st : St)
    (h : NewProps exec file useModel = .ok st) :
    file.readErr = none ∧ file.statErr = none ∧
      ∃ exe magic, file.pe = .image exe ∧ exe.OptionalHeader = .oh32 magic := by
  cases hr : file.readErr with
  | some e => rw [NewProps_unreadable exec file useModel e hr] at h; cases h
  | none =>
    cases hp : file.pe with
    | error e => rw [NewProps_rejected exec file useModel e hr hp] at h; cases h
    | image exe =>
      cases ho : exe.OptionalHeader with
      | none => rw [NewProps_no_optional_header exec file useModel exe hr hp ho] at h; cases h
      | oh64 m => rw [NewProps_oh64 exec file useModel exe m hr hp ho] at h; cases h
      | oh32 m =>
        cases hs : file.statErr with
        | some e => rw [NewProps_stat_error exec file useModel exe m e hr hs hp ho] at h; cases h
        | none => exact ⟨rfl, rfl, exe, m, rfl, ho⟩

/-- The classifier step always returns, and touches nothing but `ModelRes` and the printed
lines. -/
theorem fillFromModel_returns (exec : Exec) (s : St) :
    ∃ b out, fillFromModel exec s = .ok ⟨{ s.p with ModelRes := b }, s.file, out⟩ := by
  simp only [fillFromModel]
  by_cases h0 : (Atoi (exec ["python3", "prediction.py", s.file.name]).stdout).1 = 0
  · rw [if_pos h0]; exact ⟨false, _, rfl⟩
  · rw [if_neg h0]
    by_cases h1 : (Atoi (exec ["python3", "prediction.py", s.file.name]).stdout).1 = 1
    · rw [if_pos h1]; exact ⟨true, _, rfl⟩
    · rw [if_neg h1]
      by_cases h2 : (Atoi (exec ["python3", "prediction.py", s.file.name]).stdout).1 = -1
      · rw [if_pos h2]; exact ⟨s.p.ModelRes, _, rfl⟩
      · rw [if_neg h2]; exact ⟨s.p.ModelRes, _, rfl⟩

/-- Every state `NewProps` returns is the assembled report, up to the classification and
the printed lines, with the handle rewound. -/
theorem NewProps_ok_report (exec : Exec) (file : OsFile) (useModel : Bool) (st : St)
    (h : NewProps exec file useModel = .ok st) :
    ∃ exe magic b out, file.readErr = none ∧ file.statErr = none ∧ file.pe = .image exe ∧
      exe.OptionalHeader = .oh32 magic ∧
      st = ⟨{ reportOf file exe magic with ModelRes := b }, { file with offset := 0 }, out⟩ := by
  obtain ⟨hr, hs, exe, magic, hp, ho⟩ := NewProps_ok_inv exec file useModel st h
  rw [NewProps_image exec file useModel exe magic hr hs hp ho] at h
  cases useModel with
  | false =>
    simp only [Bool.false_eq_true, if_false, Outcome.ok.injEq] at h
    exact ⟨exe, magic, false, importLog exe, hr, hs, hp, ho, h.symm⟩
  | true =>
    simp only [if_true] at h
    obtain ⟨b, out, hb⟩ := fillFromModel_returns exec (assembled file exe magic)
    rw [hb] at h
    simp only [Outcome.ok.injEq] at h
    exact ⟨exe, magic, b, out, hr, hs, hp, ho, h.symm⟩

/-- `NewProps` returns a report once the reads and `Stat` succeed and the loader accepts the
file with a 32-bit optional header. -/
theorem NewProps_returns (exec : Exec) (file : OsFile) (useModel : Bool) (exe : PEFile)
    (magic : Nat) (hr : file.readErr = none) (hs : file.statErr = none)
    (hp : file.pe = .image exe) (ho : exe.OptionalHeader = .oh32 magic) :
    ∃ st, NewProps exec file useModel = .ok st := by
  rw [NewProps_image exec file useModel exe magic hr hs hp ho]
  cases useModel with
  | false => exact ⟨_, rfl⟩
  | true =>
    obtain ⟨b, out, hb⟩ := fillFromModel_returns exec (assembled file exe magic)
    exact ⟨_, hb⟩

theorem Atoi_text_0 : Atoi (bytesOf "0") = (0, none) := by decide

theorem Atoi_text_1 : Atoi (bytesOf "1") = (1, none) := by decide

theorem Atoi_text_minus_1 : Atoi (bytesOf "-1") = (-1, none) := by decide

theorem decStep_le (ds : Bytes) (n : Nat) :
    n ≤ ds.foldl (fun m c => m * 10 + (c - 48)) n := by
  induction ds generalizing n with
  | nil => exact Nat.le_refl n
  | cons c cs ih =>
    simp only [List.foldl_cons]
    exact Nat.le_trans (by omega) (ih (n * 10 + (c - 48)))

/-- On a run of digits the loop of `ParseUint` returns the value of the run, or the largest
64-bit value with a range error once the value no longer fits. -/
theorem parseUintLoop_digits (ds : Bytes) (n : Nat) (hn : n ≤ 18446744073709551615)
    (hall : ∀ c ∈ ds, 48 ≤ c ∧ c ≤ 57) :
    parseUintLoop ds n =
      if ds.foldl (fun m c => m * 10 + (c - 48)) n ≤ 18446744073709551615
      then (ds.foldl (fun m c => m * 10 + (c - 48)) n, none)
      else (18446744073709551615, some .ErrRange) := by
  induction ds generalizing n with
  | nil => simp only [parseUintLoop, List.foldl_nil, hn, if_true]
  | cons c cs ih =>
    have hc : 48 ≤ c ∧ c ≤ 57 := hall c (List.mem_cons_self c cs)
    have hcs : ∀ d ∈ cs, 48 ≤ d ∧ d ≤ 57 := fun d hd => hall d (List.mem_cons_of_mem c hd)
    have hle := decStep_le cs (n * 10 + (c - 48))
    simp only [parseUintLoop, hc, and_self, if_true, List.foldl_cons]
    by_cases h1 : n ≥ 18446744073709551615 / 10 + 1
    · rw [if_pos h1, if_neg (by omega)]
    · rw [if_neg h1]
      by_cases h2 : n * 10 + (c - 48) > 18446744073709551615
      · rw [if_pos h2, if_neg (by omega)]
      · rw [if_neg h2]
        exact ih (n * 10 + (c - 48)) (by omega) hcs

theorem ParseUint_digits (ds : Bytes) (hds : ds ≠ []) (hall : ∀ c ∈ ds, 48 ≤ c ∧ c ≤ 57) :
    ParseUint ds =
      if decVal ds ≤ 18446744073709551615 then (decVal ds, none)
      else (18446744073709551615, some .ErrRange) := by
  simp only [ParseUint, hds, if_false]
  exact parseUintLoop_digits ds 0 (by omega) hall

/-- What `ParseInt` makes of the unsigned value `ParseUint` found, `neg` telling whether a
minus sign was picked off. -/
theorem ParseInt_of_digits (neg : Bool) (c : Nat) (cs ds : Bytes) (hneg : neg = decide (c = 45))
    (hd : (if c = 43 ∨ c = 45 then cs else c :: cs) = ds) (hds : ds ≠ [])
    (hall : ∀ d ∈ ds, 48 ≤ d ∧ d ≤ 57) :
    (ParseInt (c :: cs)).1 =
      if neg then
        (if decVal ds ≤ 9223372036854775808 then -(decVal ds : Int) else -9223372036854775808)
      else (if decVal ds < 9223372036854775808 then (decVal ds : Int) else 9223372036854775807) := by
  simp only [ParseInt, hd, ParseUint_digits ds hds hall]
  by_cases hM : decVal ds ≤ 18446744073709551615
  · simp only [hM, if_true]
    by_cases hc : c = 45
    · simp only [hc, decide_True] at hneg
      subst hneg
      simp only [hc, not_true_eq_false, false_and, if_false, true_and, if_true, gt_iff_lt]
      split_ifs <;> first | rfl | omega
    · simp only [hc, decide_False] at hneg
      subst hneg
      simp only [hc, not_false_eq_true, true_and, false_and, if_false, ge_iff_le, Bool.false_eq_true]
      split_ifs <;> first | rfl | omega
  · simp only [hM, if_false]
    by_cases hc : c = 45
    · simp only [hc, decide_True] at hneg
      subst hneg
      simp only [hc, not_true_eq_false, false_and, if_false, true_and, if_true, gt_iff_lt]
      split_ifs <;> first | rfl | omega
    · simp only [hc, decide_False] at hneg
      subst hneg
      simp only [hc, not_false_eq_true, true_and, false_and, if_false, ge_iff_le, Bool.false_eq_true]
      split_ifs <;> first | rfl | omega

/-- The integer `Atoi` reads from an optional sign followed by a run of digits. -/
theorem Atoi_integer (sign ds : Bytes)
    (hsign : sign = [] ∨ sign = bytesOf "+" ∨ sign = bytesOf "-") (hds : ds ≠ [])
    (hall : ∀ c ∈ ds, 48 ≤ c ∧ c ≤ 57) :
    (Atoi (sign ++ ds)).1 =
      if sign = bytesOf "-" then
        (if decVal ds ≤ 9223372036854775808 then -(decVal ds : Int) else -9223372036854775808)
      else (if decVal ds < 9223372036854775808 then (decVal ds : Int) else 9223372036854775807) := by
  have hp : bytesOf "+" = [43] := by decide
  have hm : bytesOf "-" = [45] := by decide
  rw [hp, hm] at hsign
  rw [hm]
  rcases hsign with h | h | h
  · subst h
    cases ds with
    | nil => exact absurd rfl hds
    | cons c cs =>
      have hc : 48 ≤ c ∧ c ≤ 57 := hall c (List.mem_cons_self c cs)
      have h1 : ¬ (c = 43 ∨ c = 45) := by omega
      have := ParseInt_of_digits false c cs (c :: cs) (by simp; omega) (by rw [if_neg h1]) hds hall
      simpa [Atoi] using this
  · subst h
    have := ParseInt_of_digits false 43 ds ds (by decide) (by simp) hds hall
    simpa [Atoi] using this
  · subst h
    have := ParseInt_of_digits true 45 ds ds (by decide) (by simp) hds hall
    simpa [Atoi] using this

/-- On an optional sign followed by digits the classifier step sets `ModelRes` by the
value spelled. -/
theorem fillFromModel_of_integer (exec : Exec) (s : St) (sign ds : Bytes)
    (hsign : sign = [] ∨ sign = bytesOf "+" ∨ sign = bytesOf "-") (hds : ds ≠ [])
    (hall : ∀ c ∈ ds, 48 ≤ c ∧ c ≤ 57)
    (hout : (exec ["python3", "prediction.py", s.file.name]).stdout = sign ++ ds) :
    ∃ out, fillFromModel exec s = .ok ⟨{ s.p with ModelRes :=
      (if decVal ds = 0 then false
       else if decVal ds = 1 ∧ sign ≠ bytesOf "-" then true
       else s.p.ModelRes) }, s.file, out⟩ := by
  have hA := Atoi_integer sign ds hsign hds hall
  simp only [fillFromModel, hout, hA]
  by_cases hm : sign = bytesOf "-"
  · simp only [hm, if_true, ne_eq, not_true_eq_false, and_false, if_false]
    by_cases hz : decVal ds = 0
    · simp only [hz]
      exact ⟨_, rfl⟩
    · simp only [hz, if_false]
      have h0 : ¬ (if decVal ds ≤ 9223372036854775808 then -(decVal ds : Int)
          else -9223372036854775808) = 0 := by split_ifs <;> first | omega | simp
      have h1 : ¬ (if decVal ds ≤ 9223372036854775808 then -(decVal ds : Int)
          else -9223372036854775808) = 1 := by split_ifs <;> first | omega | simp
      rw [if_neg h0, if_neg h1]
      split_ifs <;> exact ⟨_, rfl⟩
  · simp only [hm, if_false, ne_eq, not_false_eq_true, and_true]
    by_cases hz : decVal ds = 0
    · simp only [hz]
      exact ⟨_, rfl⟩
    · simp only [hz, if_false]
      have h0 : ¬ (if decVal ds < 9223372036854775808 then (decVal ds : Int)
          else 9223372036854775807) = 0 := by split_ifs <;> omega
      rw [if_neg h0]
      by_cases ho : decVal ds = 1
      · simp only [ho]
        exact ⟨_, rfl⟩
      · have h1 : ¬ (if decVal ds < 9223372036854775808 then (decVal ds : Int)
            else 9223372036854775807) = 1 := by split_ifs <;> omega
        rw [if_neg h1]
        simp only [ho, if_false]
        split_ifs <;> exact ⟨_, rfl⟩

theorem sprintfAux_text (c : Char) (cs : List Char) (args : List String) (h : c ≠ '%') :
    sprintfAux (c :: cs) none args = c :: sprintfAux cs none args := by
  simp only [sprintfAux, h, if_false]

theorem sprintfAux_s (cs : List Char) (a : String) (args : List String) :
    sprintfAux ('%' :: 's' :: cs) none (a :: args) = a.data ++ sprintfAux cs none args := by
  simp [sprintfAux]

theorem sprintfAux_column (cs : List Char) (a : String) (args : List String) :
    sprintfAux ('%' :: '-' :: '1' :: '5' :: 's' :: cs) none (a :: args)
      = (column a).data ++ sprintfAux cs none args := by
  simp [sprintfAux, column]

/-- The file-type step returns normally whatever the machine code is, every report
`NewProps` returns has `FileType` "Win32 Exe" for machine code 0x14c, "Win64 Exe" for 0x8664
and the empty string for any other code, and `NewProps` returns a report whenever hashing,
the magic step and `Stat` go through. -/
theorem NewProps_report_FileType (exec : Exec) (file : OsFile) (useModel : Bool) (exe : PEFile)
    (hp : file.pe = .image exe) :
    (∀ s : St, s.file = file → ∃ s', fillFileType s = .ok s') ∧
    (∀ st, NewProps exec file useModel = .ok st →
      st.p.FileType = if exe.Machine = 0x14c then "Win32 Exe"
        else if exe.Machine = 0x8664 then "Win64 Exe" else "") ∧
    (file.readErr = none → file.statErr = none →
      (∃ magic, exe.OptionalHeader = .oh32 magic) →
      ∃ st, NewProps exec file useModel = .ok st) := by
  refine ⟨?_, ?_, ?_⟩
  · intro s hs
    exact ⟨_, fillFileType_image s exe (by rw [hs]; exact hp)⟩
  · intro st h
    obtain ⟨exe2, magic, b, out, -, -, hp2, -, rfl⟩ := NewProps_ok_report exec file useModel st h
    rw [hp] at hp2
    cases hp2
    rfl
  · rintro hr hs ⟨magic, ho⟩
    exact NewProps_returns exec file useModel exe magic hr hs hp ho

/-- On a handle at read position 0, a run of `NewProps` that returns a report leaves the
handle as it found it, a second run on that handle then returns a report too, and the two
reports have the same `MD5`, `SHA1`, `SHA256` and `FSize`, the digests of the complete
content and its length; the first run returns whenever hashing, the magic step and `Stat`
go through. -/
theorem NewProps_report_twice (exec1 exec2 : Exec) (file : OsFile) (u1 u2 : Bool) (exe : PEFile)
    (hp : file.pe = .image exe) (h0 : file.offset = 0) :
    (∀ st1, NewProps exec1 file u1 = .ok st1 →
      st1.file = file ∧ st1.file.offset = 0 ∧
      ∃ st2, NewProps exec2 st1.file u2 = .ok st2 ∧
        st2.p.MD5 = st1.p.MD5 ∧ st2.p.SHA1 = st1.p.SHA1 ∧ st2.p.SHA256 = st1.p.SHA256 ∧
        st2.p.FSize = st1.p.FSize ∧
        st1.p.MD5 = EncodeToString (md5Sum file.content) ∧
        st1.p.SHA1 = EncodeToString (sha1Sum file.content) ∧
        st1.p.SHA256 = EncodeToString (sha256Sum file.content) ∧
        st1.p.FSize = FormatInt (file.content.length : Nat)) ∧
    (file.readErr = none → file.statErr = none →
      (∃ magic, exe.OptionalHeader = .oh32 magic) →
      ∃ st1, NewProps exec1 file u1 = .ok st1) := by
  refine ⟨?_, ?_⟩
  · intro st1 h1
    obtain ⟨exe1, magic, b, out, hr, hs, hp1, ho, rfl⟩ :=
      NewProps_ok_report exec1 file u1 st1 h1
    have hf : ({ file with offset := 0 } : OsFile) = file := by
      cases file
      simp only [OsFile.mk.injEq, true_and, and_true] at h0 ⊢
      exact h0.symm
    refine ⟨hf, rfl, ?_⟩
    simp only [hf]
    obtain ⟨st2, h2⟩ := NewProps_returns exec2 file u2 exe1 magic hr hs hp1 ho
    obtain ⟨exe2, magic2, b2, out2, -, -, -, -, rfl⟩ := NewProps_ok_report exec2 file u2 st2 h2
    refine ⟨_, h2, rfl, rfl, rfl, rfl, ?_, rfl, rfl, rfl⟩
    simp only [reportOf, h0, List.drop_zero]
  · rintro hr hs ⟨magic, ho⟩
    exact NewProps_returns exec1 file u1 exe magic hr hs hp ho

/-! ## The claims -/

set_option maxRecDepth 100000

/-- C1 fails on the code: for the sample PE32+ image (optional-header magic 0x20B, exposed
by the loader in its 64-bit form) `fillMagic`, and with it `NewProps`, ends in a run-time
panic instead of setting `Magic` to "PE32P"; an image without optional header panics too. -/
theorem fillMagic_panics_on_PE32P :
    file64.pe = .image exe64 ∧ exe64.OptionalHeader = .oh64 0x20B ∧
    fillMagic ⟨BasicProps.zero, file64, []⟩
      = .panic "interface conversion: interface \x7b\x7d is *pe.OptionalHeader64, not *pe.OptionalHeader32" ∧
    NewProps (printing "0") file64 false
      = .panic "interface conversion: interface \x7b\x7d is *pe.OptionalHeader64, not *pe.OptionalHeader32" ∧
    fileNoOpt.pe = .image exeNoOpt ∧ exeNoOpt.OptionalHeader = .none ∧
    fillMagic ⟨BasicProps.zero, fileNoOpt, []⟩
      = .panic "interface conversion: interface \x7b\x7d is nil, not *pe.OptionalHeader32" :=
  ⟨rfl, rfl, by decide, by
    rw [NewProps_oh64 (printing "0") file64 false exe64 PE32P rfl rfl rfl]
    decide, rfl, rfl, by decide⟩

/-- C2 fails on the code: on the two-byte sample image with the handle at read position
2, `fillHashes` (and `NewProps`, which hands the handle on as it got it) sets `MD5` to the
digest of the empty byte sequence, which is what is left after the read position, not of the
content, while `SHA1` and `SHA256`, read after a rewind, are the digests of the complete
content. -/
theorem fillHashes_md5_from_read_position :
    fileSeeked.content = [77, 90] ∧ fileSeeked.offset = 2 ∧
    (∃ st, fillHashes ⟨BasicProps.zero, fileSeeked, []⟩ = .ok st ∧
      st.p.MD5 = EncodeToString (md5Sum []) ∧
      st.p.MD5 = "d41d8cd98f00b204e9800998ecf8427e" ∧
      EncodeToString (md5Sum fileSeeked.content) = "ac6ad5d9b99757c3a878f2d275ace198" ∧
      st.p.MD5 ≠ EncodeToString (md5Sum fileSeeked.content) ∧
      st.p.SHA1 = EncodeToString (sha1Sum fileSeeked.content) ∧
      st.p.SHA256 = EncodeToString (sha256Sum fileSeeked.content)) ∧
    (∃ st, NewProps (printing "0") fileSeeked false = .ok st ∧
      st.p.MD5 = "d41d8cd98f00b204e9800998ecf8427e" ∧
      st.p.SHA1 = EncodeToString (sha1Sum fileSeeked.content)) := by
  have e0 : EncodeToString (md5Sum []) = "d41d8cd98f00b204e9800998ecf8427e" := by decide
  have e1 : EncodeToString (md5Sum fileSeeked.content) = "ac6ad5d9b99757c3a878f2d275ace198" := by
    decide
  refine ⟨rfl, rfl, ⟨_, fillHashes_readable _ rfl, rfl, e0, e1, ?_, rfl, rfl⟩,
    ⟨_, NewProps_image (printing "0") fileSeeked false exe32 PE32 rfl rfl rfl rfl, e0, rfl⟩⟩
  show EncodeToString (md5Sum []) ≠ EncodeToString (md5Sum fileSeeked.content)
  rw [e0, e1]
  decide

/-- C3, as the code has it: for every classifier output and every prior state
`fillFromModel` returns and touches no report field but `ModelRes`; and when the output is
an optional sign followed by one or more decimal digits, `ModelRes` is set by the value
spelled: false for 0, true for 1 without a minus sign, and otherwise (any other value, in or
out of the range of `int`) it is left exactly as it was. -/
theorem fillFromModel_integer_output (exec : Exec) (s : St) :
    (∃ b out, fillFromModel exec s = .ok ⟨{ s.p with ModelRes := b }, s.file, out⟩) ∧
    ∀ sign ds : Bytes, (sign = [] ∨ sign = bytesOf "+" ∨ sign = bytesOf "-") → ds ≠ [] →
      (∀ c ∈ ds, 48 ≤ c ∧ c ≤ 57) →
      (exec ["python3", "prediction.py", s.file.name]).stdout = sign ++ ds →
      ∃ out, fillFromModel exec s = .ok ⟨{ s.p with ModelRes :=
        (if decVal ds = 0 then false
         else if decVal ds = 1 ∧ sign ≠ bytesOf "-" then true
         else s.p.ModelRes) }, s.file, out⟩ :=
  ⟨fillFromModel_returns exec s,
    fun sign ds hsign hds hall hout => fillFromModel_of_integer exec s sign ds hsign hds hall hout⟩

/-- The outputs "-01", "2" and a value out of range leave a `ModelRes` that was true as it was. -/
theorem fillFromModel_integer_output_witness :
    (∃ out, fillFromModel (printing "-01") ⟨{ BasicProps.zero with ModelRes := true }, file32, []⟩
      = .ok ⟨{ BasicProps.zero with ModelRes := true }, file32, out⟩) ∧
    (∃ out, fillFromModel (printing "2") ⟨{ BasicProps.zero with ModelRes := true }, file32, []⟩
      = .ok ⟨{ BasicProps.zero with ModelRes := true }, file32, out⟩) ∧
    (∃ out, fillFromModel (printing "99999999999999999999")
        ⟨{ BasicProps.zero with ModelRes := true }, file32, []⟩
      = .ok ⟨{ BasicProps.zero with ModelRes := true }, file32, out⟩) :=
  ⟨(fillFromModel_integer_output (printing "-01")
      ⟨{ BasicProps.zero with ModelRes := true }, file32, []⟩).2 (bytesOf "-") (bytesOf "01")
      (Or.inr (Or.inr rfl)) (by decide) (by decide) rfl,
    (fillFromModel_integer_output (printing "2")
      ⟨{ BasicProps.zero with ModelRes := true }, file32, []⟩).2 [] (bytesOf "2")
      (Or.inl rfl) (by decide) (by decide) rfl,
    (fillFromModel_integer_output (printing "99999999999999999999")
      ⟨{ BasicProps.zero with ModelRes := true }, file32, []⟩).2 []
      (bytesOf "99999999999999999999")
      (Or.inl rfl) (by decide) (by decide) rfl⟩

/-- C3 fails as stated: the outputs "+1" and "01" are none of "0", "1", "-1", yet they turn
a `ModelRes` that was false into true; and the output "abc" turns a `ModelRes` that was true
into false. -/
theorem fillFromModel_changes_ModelRes :
    bytesOf "+1" ≠ bytesOf "0" ∧ bytesOf "+1" ≠ bytesOf "1" ∧ bytesOf "+1" ≠ bytesOf "-1" ∧
    fillFromModel (printing "+1") ⟨BasicProps.zero, file32, []⟩
      = .ok ⟨{ BasicProps.zero with ModelRes := true }, file32, []⟩ ∧
    fillFromModel (printing "01") ⟨BasicProps.zero, file32, []⟩
      = .ok ⟨{ BasicProps.zero with ModelRes := true }, file32, []⟩ ∧
    fillFromModel (printing "abc") ⟨{ BasicProps.zero with ModelRes := true }, file32, []⟩
      = .ok ⟨BasicProps.zero, file32, []⟩ ∧
    BasicProps.zero.ModelRes = false := by
  decide

/-- C4 fails on the code: the sample 64-bit image is parsed by the loader with machine code
0x8664, its reads and `Stat` succeed, and the file-type step sets `FileType` to "Win64 Exe",
but the next step, `fillMagic`, panics on the 64-bit optional header, so `NewProps` returns
no report at all instead of one with `FileType` "Win64 Exe". -/
theorem NewProps_no_report_for_Win64 :
    file64.pe = .image exe64 ∧ exe64.Machine = 0x8664 ∧
    file64.readErr = none ∧ file64.statErr = none ∧
    (∃ s1 s2, fillHashes ⟨{ BasicProps.zero with Name := file64.name }, file64, []⟩ = .ok s1 ∧
      fillFileType s1 = .ok s2 ∧ s2.p.FileType = "Win64 Exe" ∧
      fillMagic s2 = .panic "interface conversion: interface \x7b\x7d is *pe.OptionalHeader64, not *pe.OptionalHeader32") ∧
    (∀ useModel st, NewProps (printing "1") file64 useModel ≠ .ok st) := by
  refine ⟨rfl, rfl, rfl, rfl, ⟨_, _, fillHashes_readable _ rfl,
    fillFileType_image _ exe64 rfl, by decide, fillMagic_oh64 _ exe64 PE32P rfl rfl⟩, ?_⟩
  intro useModel st h
  rw [NewProps_oh64 (printing "1") file64 useModel exe64 PE32P rfl rfl rfl] at h
  cases h

/-- C5: for every prior state, classifier output "1" sets `ModelRes` to true, output "0"
sets it to false, and output "-1" leaves the whole report as it was and prints
"Error from the model"; in each case the step returns and the only other effect is the line
"Error running model" when the process reported an error. -/
theorem fillFromModel_verdicts (exec : Exec) (s : St) :
    ((exec ["python3", "prediction.py", s.file.name]).stdout = bytesOf "1" →
      fillFromModel exec s = .ok ⟨{ s.p with ModelRes := true }, s.file,
        if (exec ["python3", "prediction.py", s.file.name]).err.isSome
        then s.out ++ ["Error running model"] else s.out⟩) ∧
    ((exec ["python3", "prediction.py", s.file.name]).stdout = bytesOf "0" →
      fillFromModel exec s = .ok ⟨{ s.p with ModelRes := false }, s.file,
        if (exec ["python3", "prediction.py", s.file.name]).err.isSome
        then s.out ++ ["Error running model"] else s.out⟩) ∧
    ((exec ["python3", "prediction.py", s.file.name]).stdout = bytesOf "-1" →
      fillFromModel exec s = .ok ⟨s.p, s.file,
        (if (exec ["python3", "prediction.py", s.file.name]).err.isSome
        then s.out ++ ["Error running model"] else s.out) ++ ["Error from the model"]⟩) := by
  refine ⟨?_, ?_, ?_⟩
  · intro h
    simp only [fillFromModel, h, Atoi_text_1]
    rfl
  · intro h
    simp only [fillFromModel, h, Atoi_text_0]
    rfl
  · intro h
    simp only [fillFromModel, h, Atoi_text_minus_1]
    rfl

/-- The three verdicts on sample states. -/
theorem fillFromModel_verdicts_witness :
    fillFromModel (printing "1") ⟨BasicProps.zero, file32, []⟩
      = .ok ⟨{ BasicProps.zero with ModelRes := true }, file32, []⟩ ∧
    fillFromModel (printing "0") ⟨{ BasicProps.zero with ModelRes := true }, file32, []⟩
      = .ok ⟨BasicProps.zero, file32, []⟩ ∧
    fillFromModel (printing "-1") ⟨{ BasicProps.zero with ModelRes := true }, file32, []⟩
      = .ok ⟨{ BasicProps.zero with ModelRes := true }, file32, ["Error from the model"]⟩ :=
  ⟨(fillFromModel_verdicts (printing "1") ⟨BasicProps.zero, file32, []⟩).1 rfl,
    (fillFromModel_verdicts (printing "0")
      ⟨{ BasicProps.zero with ModelRes := true }, file32, []⟩).2.1 rfl,
    (fillFromModel_verdicts (printing "-1")
      ⟨{ BasicProps.zero with ModelRes := true }, file32, []⟩).2.2 rfl⟩

/-- C6 fails on the code: on the sample file the loader rejects, `fillSections` and
`fillSymbols` print their message and then end in a nil-pointer panic instead of returning;
`fillLibraries` does return, with `Libraries` empty and the rest of the report untouched. -/
theorem fillSections_panics_on_rejected_file :
    fileBad.pe = .error "DOS header missing MZ signature" ∧
    fillSections ⟨BasicProps.zero, fileBad, []⟩
      = .panic "runtime error: invalid memory address or nil pointer dereference" ∧
    fillSymbols ⟨BasicProps.zero, fileBad, []⟩
      = .panic "runtime error: invalid memory address or nil pointer dereference" ∧
    fillLibraries ⟨BasicProps.zero, fileBad, []⟩
      = .ok ⟨BasicProps.zero, fileBad, ["Error converting to PE in fillImports"]⟩ :=
  ⟨rfl, by decide, by decide, by decide⟩

/-- C7, as the code has it: the classification is a two-valued field, so on every file for
which `NewProps` returns a report with the classifier disabled, that report has
`ModelRes = false`, and the report returned with the classifier enabled and printing "0"
exists and is the same report, field for field. -/
theorem NewProps_disabled_is_false (exec exec0 : Exec) (file : OsFile) (st : St)
    (h : NewProps exec file false = .ok st)
    (h0 : (exec0 ["python3", "prediction.py", file.name]).stdout = bytesOf "0") :
    st.p.ModelRes = false ∧ ∃ st0, NewProps exec0 file true = .ok st0 ∧ st0.p = st.p := by
  obtain ⟨hr, hs, exe, magic, hp, ho⟩ := NewProps_ok_inv exec file false st h
  rw [NewProps_image exec file false exe magic hr hs hp ho] at h
  simp only [Bool.false_eq_true, if_false, Outcome.ok.injEq] at h
  subst h
  refine ⟨rfl, ?_⟩
  rw [NewProps_image exec0 file true exe magic hr hs hp ho]
  have hn : (assembled file exe magic).file.name = file.name := rfl
  simp only [if_true, fillFromModel, hn, h0, Atoi_text_0]
  exact ⟨_, rfl, rfl⟩

/-- The sample 32-bit image with the classifier disabled, and enabled printing "0". -/
theorem NewProps_disabled_is_false_witness :
    ∃ st, NewProps (printing "1") file32 false = .ok st ∧ st.p.ModelRes = false ∧
      ∃ st0, NewProps (printing "0") file32 true = .ok st0 ∧ st0.p = st.p := by
  obtain ⟨st, h⟩ := NewProps_returns (printing "1") file32 false exe32 PE32 rfl rfl rfl rfl
  obtain ⟨ha, hb⟩ := NewProps_disabled_is_false (printing "1") (printing "0") file32 st h rfl
  exact ⟨st, h, ha, hb⟩

/-- C7 fails as stated: on the sample 32-bit image the report returned with the classifier
disabled and the report returned with the classifier enabled and printing "0" carry the
same classification, `false`. -/
theorem NewProps_disabled_not_distinguishable :
    ∃ st1 st2, NewProps (printing "0") file32 false = .ok st1 ∧
      NewProps (printing "0") file32 true = .ok st2 ∧
      st1.p.ModelRes = false ∧ st2.p.ModelRes = false ∧ st1.p = st2.p := by
  refine ⟨assembled file32 exe32 PE32, assembled file32 exe32 PE32, ?_, ?_, rfl, rfl, rfl⟩
  · rw [NewProps_image (printing "0") file32 false exe32 PE32 rfl rfl rfl rfl]
    rfl
  · rw [NewProps_image (printing "0") file32 true exe32 PE32 rfl rfl rfl rfl]
    have hn : (assembled file32 exe32 PE32).file.name = file32.name := rfl
    have h0 : (printing "0" ["python3", "prediction.py", file32.name]).stdout = bytesOf "0" := rfl
    simp only [if_true, fillFromModel, hn, h0, Atoi_text_0]
    rfl

/-- C8: for every file the loader rejects, `NewProps` returns no report and ends in a fatal
error, which (the hashing reads having succeeded) is the parse error raised by
`fillFileType`, the first step that loads the headers; and whenever `NewProps` returns a
report, the loader accepted the file. -/
theorem NewProps_rejected_is_fatal (exec : Exec) (file : OsFile) (useModel : Bool) :
    (∀ e, file.pe = .error e →
      (∀ st, NewProps exec file useModel ≠ .ok st) ∧
      (∃ msg, NewProps exec file useModel = .fatal msg) ∧
      (file.readErr = none →
        NewProps exec file useModel = .fatal ("Error converting to pe: " ++ e) ∧
        ∃ s1, fillHashes ⟨{ BasicProps.zero with Name := file.name }, file, []⟩ = .ok s1 ∧
          fillFileType s1 = .fatal ("Error converting to pe: " ++ e))) ∧
    (∀ st, NewProps exec file useModel = .ok st → ∃ exe, file.pe = .image exe) := by
  refine ⟨?_, ?_⟩
  · intro e hp
    refine ⟨?_, ?_, ?_⟩
    · intro st h
      obtain ⟨-, -, exe, -, hp2, -⟩ := NewProps_ok_inv exec file useModel st h
      rw [hp] at hp2
      cases hp2
    · cases hr : file.readErr with
      | some r => exact ⟨_, NewProps_unreadable exec file useModel r hr⟩
      | none => exact ⟨_, NewProps_rejected exec file useModel e hr hp⟩
    · intro hr
      exact ⟨NewProps_rejected exec file useModel e hr hp, _, fillHashes_readable _ hr,
        fillFileType_error _ e hp⟩
  · intro st h
    obtain ⟨-, -, exe, -, hp, -⟩ := NewProps_ok_inv exec file useModel st h
    exact ⟨exe, hp⟩

/-- The sample rejected file ends `NewProps` in the parse error. -/
theorem NewProps_rejected_is_fatal_witness :
    fileBad.pe = .error "DOS header missing MZ signature" ∧
    NewProps (printing "1") fileBad true
      = .fatal "Error converting to pe: DOS header missing MZ signature" :=
  ⟨rfl, ((NewProps_rejected_is_fatal (printing "1") fileBad true).1 _ rfl).2.2 rfl |>.1⟩

/-- C9 fails on the code: the sample 64-bit image is a valid PE file on a handle at read
position 0 whose reads and `Stat` succeed; the first run of `NewProps` on it ends in the
panic of `fillMagic`, so there is no first report, hence no pair of reports with identical
hash and size fields. -/
theorem NewProps_twice_no_report_on_PE32P :
    file64.pe = .image exe64 ∧ exe64.OptionalHeader = .oh64 0x20B ∧ file64.offset = 0 ∧
    file64.readErr = none ∧ file64.statErr = none ∧
    (∀ u1, NewProps (printing "0") file64 u1
      = .panic "interface conversion: interface \x7b\x7d is *pe.OptionalHeader64, not *pe.OptionalHeader32") ∧
    ¬ ∃ u1 u2 st1 st2, NewProps (printing "0") file64 u1 = .ok st1 ∧
      NewProps (printing "0") st1.file u2 = .ok st2 := by
  have hp : ∀ u1, NewProps (printing "0") file64 u1
      = .panic "interface conversion: interface \x7b\x7d is *pe.OptionalHeader64, not *pe.OptionalHeader32" :=
    fun u1 => NewProps_oh64 (printing "0") file64 u1 exe64 PE32P rfl rfl rfl
  refine ⟨rfl, rfl, rfl, rfl, rfl, hp, ?_⟩
  rintro ⟨u1, u2, st1, st2, h1, -⟩
  rw [hp u1] at h1
  cases h1

/-- C10: for every report, `String()` is the header line "---Basic Info---" followed by
six lines, in the order MD5, SHA1, SHA256, file type, magic, file size, each made of its
label left-justified in a 15-character column directly followed by the field value; the
lines are joined by single newlines and the text ends with the file-size value. -/
theorem String_layout (p : BasicProps) :
    p.String = "---Basic Info---" ++ "\n"
      ++ column "MD5 Hash: " ++ p.MD5 ++ "\n"
      ++ column "SHA1 Hash: " ++ p.SHA1 ++ "\n"
      ++ column "SHA256 Hash: " ++ p.SHA256 ++ "\n"
      ++ column "File Type: " ++ p.FileType ++ "\n"
      ++ column "Magic: " ++ p.Magic ++ "\n"
      ++ column "File Size: " ++ p.FSize ∧
    column "MD5 Hash: " = "MD5 Hash:      " ∧ column "SHA1 Hash: " = "SHA1 Hash:     " ∧
    column "SHA256 Hash: " = "SHA256 Hash:   " ∧ column "File Type: " = "File Type:     " ∧
    column "Magic: " = "Magic:         " ∧ column "File Size: " = "File Size:     " ∧
    ∀ label ∈ ["MD5 Hash: ", "SHA1 Hash: ", "SHA256 Hash: ", "File Type: ", "Magic: ",
      "File Size: "], (column label).length = 15 := by
  refine ⟨?_, by decide, by decide, by decide, by decide, by decide, by decide, by decide⟩
  apply String.ext
  have hf : "---Basic Info---\n%-15s%s\n%-15s%s\n%-15s%s\n%-15s%s\n%-15s%s\n%-15s%s".toList
      = "---Basic Info---\n".toList ++ ('%' :: '-' :: '1' :: '5' :: 's' :: '%' :: 's' :: '\n'
      :: '%' :: '-' :: '1' :: '5' :: 's' :: '%' :: 's' :: '\n'
      :: '%' :: '-' :: '1' :: '5' :: 's' :: '%' :: 's' :: '\n'
      :: '%' :: '-' :: '1' :: '5' :: 's' :: '%' :: 's' :: '\n'
      :: '%' :: '-' :: '1' :: '5' :: 's' :: '%' :: 's' :: '\n'
      :: '%' :: '-' :: '1' :: '5' :: 's' :: '%' :: 's' :: []) := by decide
  have hh : ∀ (cs : List Char) (args : List String),
      sprintfAux ("---Basic Info---\n".toList ++ cs) none args
        = "---Basic Info---\n".toList ++ sprintfAux cs none args := by
    intro cs args
    have e : "---Basic Info---\n".toList = ['-', '-', '-', 'B', 'a', 's', 'i', 'c', ' ', 'I', 'n',
      'f', 'o', '-', '-', '-', '\n'] := by decide
    rw [e]
    simp only [List.cons_append, List.nil_append]
    repeat rw [sprintfAux_text _ _ _ (by decide)]
  have hn : ∀ (cs : List Char) (args : List String),
      sprintfAux ('\n' :: cs) none args = "\n".data ++ sprintfAux cs none args :=
    fun cs args => sprintfAux_text _ cs args (by decide)
  have he : ∀ args : List String, sprintfAux [] none args = [] := fun _ => rfl
  have hd : "---Basic Info---\n".toList = "---Basic Info---".data ++ "\n".data := by decide
  simp only [BasicProps.String, Sprintf, hf, hh, sprintfAux_column, sprintfAux_s, hn, he]
  simp only [hd, String.data_append, List.append_assoc, List.append_nil]

end Pinfo
